import Mathlib

/-!
Shallow embedding of `cmd/cli/main.go` from the company-registrations CLI.

Go strings are modelled as `List Char` (`GoString`).  The four regular
expressions in the source all have the shape `.*P(.*)S.*` (with `.` not
matching a newline); their Go `FindStringSubmatch` behaviour under RE2's
leftmost-first, greedy semantics is embedded by `reCapture` below.
-/

set_option autoImplicit false

/-- Go `string`, modelled as a list of characters. -/
abbrev GoString := List Char

/-- RE2's Perl character class `\s`, i.e. `[\t\n\f\r ]`. -/
def goRegexWS (c : Char) : Bool :=
  c == '\t' || c == '\n' || c == '\x0c' || c == '\r' || c == ' '

/-- RE2's Perl character class `\d`, i.e. `[0-9]`. -/
def goIsDigit (c : Char) : Bool :=
  decide ('0' ≤ c ∧ c ≤ '9')

/-- Go `unicode.IsSpace`: the white-space code points of `unicode.White_Space`. -/
def goIsSpace (c : Char) : Bool :=
  c == ' ' || c == '\t' || c == '\n' || c == '\x0b' || c == '\x0c' || c == '\r' ||
  c == '\x85' || c == '\xa0' || c == '\u1680' ||
  (decide ('\u2000' ≤ c) && decide (c ≤ '\u200a')) ||
  c == '\u2028' || c == '\u2029' || c == '\u202f' || c == '\u205f' || c == '\u3000' 

/-- Go `strings.TrimSpace`: drop leading and trailing white space. -/
def goTrim (cs : GoString) : GoString :=
  ((cs.dropWhile goIsSpace).reverse.dropWhile goIsSpace).reverse

/-- Go `len` of a string (UTF-8 byte length). -/
def goStrLen (cs : GoString) : Nat :=
  (cs.map Char.utf8Size).sum

/-- Predicate: `pat` occurs in `cs` starting at index `i`. -/
def occursAt (pat cs : GoString) (i : Nat) : Bool :=
  (cs.drop i).take pat.length == pat

/-- Index of the leftmost occurrence of `pat` in `cs` (Go `strings.Index`). -/
def firstIdx (cs pat : GoString) : Option Nat :=
  (List.range cs.length).find? (fun i => occursAt pat cs i)

/-- `pat` occurs somewhere in `cs` (Go `strings.Contains`, for nonempty `pat`). -/
def hasOccur (cs pat : GoString) : Bool :=
  (firstIdx cs pat).isSome

/-- Fuel-driven worker for `goSplit`; fuel bounds the number of cuts. -/
def goSplitAux : Nat → GoString → GoString → List GoString
  | 0, cs, _ => [cs]
  | fuel + 1, cs, sep =>
    match firstIdx cs sep with
    | none => [cs]
    | some i => cs.take i :: goSplitAux fuel (cs.drop (i + sep.length)) sep

/-- Go `strings.Split` for a nonempty separator. -/
def goSplit (cs sep : GoString) : List GoString :=
  goSplitAux (cs.length + 1) cs sep

/-- No newline among `cs[a..b)` — the region a `.*` has to cross. -/
def noNL (cs : GoString) (a b : Nat) : Bool :=
  ((cs.drop a).take (b - a)).all (fun c => !(c == '\n'))

/-- Predicate: `k` is a feasible end position: the suffix literal `slit` starts at `k`,
at or after `capStart`, and the capture `cs[capStart..k)` crosses no newline. -/
def reFeasK (slit cs : GoString) (capStart k : Nat) : Bool :=
  occursAt slit cs k && decide (capStart ≤ k) && noNL cs capStart k

/-- The submatch the pattern yields when its `P` part is anchored at `i`:
`P` must match at `i` (consuming `pm cs i` characters) and the greedy `(.*)`
extends to the last feasible `slit` position. -/
def reCapAt (pm : GoString → Nat → Option Nat) (slit cs : GoString) (i : Nat) :
    Option GoString :=
  (pm cs i).bind fun l =>
    (((List.range cs.length).filter (reFeasK slit cs (i + l))).getLast?).map fun k =>
      (cs.drop (i + l)).take (k - (i + l))

/-- Go `FindStringSubmatch` capture for a regex `.*P(.*)S.*` under leftmost-first
greedy semantics: the match starts in the first line containing a feasible
anchor, the greedy leading `.*` picks the last feasible anchor of that line,
and the greedy `(.*)` picks the last feasible end position. -/
def reCapture (pm : GoString → Nat → Option Nat) (slit cs : GoString) :
    Option GoString :=
  (((List.range cs.length).filter (fun i => (reCapAt pm slit cs i).isSome)).head?).bind
    fun i0 =>
      ((((List.range cs.length).filter (fun i => (reCapAt pm slit cs i).isSome)).filter
          (fun i => noNL cs i0 i)).getLast?).bind (reCapAt pm slit cs)

/-- Anchor matcher for a literal string `P`. -/
def pmLit (lit : GoString) (cs : GoString) (i : Nat) : Option Nat :=
  if occursAt lit cs i then some lit.length else none

/-- Anchor matcher for `:\s` (a colon followed by one `\s` character). -/
def pmColonWS (cs : GoString) (i : Nat) : Option Nat :=
  cs[i]?.bind fun c1 =>
    (cs[i + 1]?).bind fun c2 =>
      if c1 = ':' ∧ goRegexWS c2 then some 2 else none

/-- A run of five digits starts at index `p` of `cs`. -/
def digitRunAt (cs : GoString) (p : Nat) : Bool :=
  ((cs.drop p).take 5).length == 5 && ((cs.drop p).take 5).all goIsDigit

/-- Go `FindStringSubmatch` capture for `.*(\d{5}).*`: the greedy leading `.*`
selects the last five-digit window of the first line containing one. -/
def reCaptureD5 (cs : GoString) : Option GoString :=
  (((List.range cs.length).filter (fun p => digitRunAt cs p)).head?).bind fun p0 =>
    ((((List.range cs.length).filter (fun p => digitRunAt cs p)).filter
        (fun p => noNL cs p0 p)).getLast?).map fun p =>
      (cs.drop p).take 5

/-- Embedding of `extractCompanyNumber` from `main.go`: submatch of `.*:\s(.*)\n.*`, or an
error echoing the input. -/
def extractCompanyNumber (text : GoString) : Except GoString GoString :=
  match reCapture pmColonWS "\n".toList text with
  | some cap => .ok cap
  | none => .error ("unable to extract company registration number: ".toList ++ text)

/-- Components of a Go `time.Time` as produced by `time.Parse` in this program
(year, month, day, hour, minute; seconds are always zero here). -/
structure DateTime where
  year : Nat
  month : Nat
  day : Nat
  hour : Nat
  minute : Nat
deriving DecidableEq

/-- Numeric value of a digit character. -/
def digitVal (c : Char) : Nat := c.toNat - '0'.toNat

/-- Go `time` package `getnum` with `fixed = true`: exactly two digits. -/
def getnum2 (cs : GoString) : Option (Nat × GoString) :=
  match cs with
  | c1 :: c2 :: rest =>
    if goIsDigit c1 && goIsDigit c2 then some (digitVal c1 * 10 + digitVal c2, rest)
    else none
  | _ => none

/-- Go `time` package `getnum` with `fixed = false`: one or two digits. -/
def getnumFlex (cs : GoString) : Option (Nat × GoString) :=
  match cs with
  | [] => none
  | c1 :: rest =>
    if goIsDigit c1 then
      match rest with
      | c2 :: rest2 =>
        if goIsDigit c2 then some (digitVal c1 * 10 + digitVal c2, rest2)
        else some (digitVal c1, rest)
      | [] => some (digitVal c1, [])
    else none

/-- Go `time.Parse` handling of the `2006` layout chunk: exactly four digits. -/
def getnum4 (cs : GoString) : Option (Nat × GoString) :=
  match cs with
  | c1 :: c2 :: c3 :: c4 :: rest =>
    if goIsDigit c1 && goIsDigit c2 && goIsDigit c3 && goIsDigit c4 then
      some (digitVal c1 * 1000 + digitVal c2 * 100 + digitVal c3 * 10 + digitVal c4, rest)
    else none
  | _ => none

/-- Consume one literal layout character. -/
def litc (c : Char) (cs : GoString) : Option GoString :=
  match cs with
  | c1 :: rest => if c1 = c then some rest else none
  | [] => none

/-- Gregorian leap year, as in Go `time.isLeap`. -/
def leapYear (y : Nat) : Bool :=
  decide (y % 4 = 0) && (!decide (y % 100 = 0) || decide (y % 400 = 0))

/-- Days in a month, as in Go `time.daysIn`. -/
def daysIn (month year : Nat) : Nat :=
  if month = 2 then (if leapYear year then 29 else 28)
  else if month = 4 \/ month = 6 \/ month = 9 \/ month = 11 then 30
  else 31

/-- Final range validation of Go `time.Parse`: month and day ranges (checked at
the end of `Parse`) and the hour/minute range checks done while scanning. -/
def mkDateTime (y mo d h mi : Nat) : Option DateTime :=
  if 1 ≤ mo ∧ mo ≤ 12 ∧ 1 ≤ d ∧ d ≤ daysIn mo y ∧ h < 24 ∧ mi < 60 then
    some (DateTime.mk y mo d h mi)
  else none

/-- Go `time.Parse("02.01.2006 15:04", s)`: two-digit day, dot, two-digit
month, dot, four-digit year, space, one-or-two-digit hour, colon, two-digit
minute, end of input, then range validation. -/
def goParseTimestamp (cs : GoString) : Option DateTime :=
  (getnum2 cs).bind fun dr =>
  (litc '.' dr.2).bind fun r2 =>
  (getnum2 r2).bind fun mr =>
  (litc '.' mr.2).bind fun r4 =>
  (getnum4 r4).bind fun yr =>
  (litc ' ' yr.2).bind fun r6 =>
  (getnumFlex r6).bind fun hr =>
  (litc ':' hr.2).bind fun r8 =>
  (getnum2 r8).bind fun mir =>
  if mir.2 = [] then mkDateTime yr.1 mr.1 dr.1 hr.1 mir.1 else none

/-- Go `time.Parse("2006-01-02", s)`: four-digit year, dash, two-digit month,
dash, two-digit day, end of input, then range validation. -/
def goParseDate (cs : GoString) : Option DateTime :=
  (getnum4 cs).bind fun yr =>
  (litc '-' yr.2).bind fun r2 =>
  (getnum2 r2).bind fun mr =>
  (litc '-' mr.2).bind fun r4 =>
  (getnum2 r4).bind fun dr =>
  if dr.2 = [] then mkDateTime yr.1 mr.1 dr.1 0 0 else none

/-- The marker literal of `extractCompanyRegistrationDate`. -/
def bekanntLit : GoString := "Bekannt gemacht am:".toList

/-- The trailing literal of `extractCompanyRegistrationDate`. -/
def uhrLit : GoString := "Uhr".toList

/-- Embedding of `extractCompanyRegistrationDate` from `main.go`: submatch of
`.*Bekannt gemacht am:(.*)Uhr`, trimmed, parsed with layout
`02.01.2006 15:04`; `none` models the Go `nil, err` results. -/
def extractCompanyRegistrationDate (text : GoString) : Option DateTime :=
  (reCapture (pmLit bekanntLit) uhrLit text).bind fun cap =>
    goParseTimestamp (goTrim cap)

/-- Comma separator used by the positional extractors. -/
def commaLit : GoString := ",".toList

/-- The `": "` separator used by `extractCompanyName`. -/
def colonSpaceLit : GoString := ": ".toList

/-- Embedding of `extractCompanyName` from `main.go`: second `": "`-part of the first
comma-separated section.  `none` models the Go index-out-of-range panic; on
termination the Go error result is always `nil`, kept as the second component. -/
def extractCompanyName (text : GoString) : Option (GoString × Option GoString) :=
  ((goSplit ((goSplit text commaLit).headI) colonSpaceLit)[1]?).map fun v => (v, none)

/-- Embedding of `extractCompanyAddress` from `main.go`: the third comma-separated section.
`none` models the index-out-of-range panic; the `Bool` records whether the
over-35-byte diagnostic `fmt.Println` fired; the Go error result is always
`nil`, kept as the last component. -/
def extractCompanyAddress (text : GoString) : Option (GoString × Bool × Option GoString) :=
  ((goSplit text commaLit)[2]?).map fun s => (s, decide (35 < goStrLen s), none)

/-- Embedding of `extractCity` from `main.go`: the second comma-separated section.  `none`
models the index-out-of-range panic; the Go error result is always `nil`. -/
def extractCity (text : GoString) : Option (GoString × Option GoString) :=
  ((goSplit text commaLit)[1]?).map fun v => (v, none)

/-- Embedding of `extractPostalCode` from `main.go`: submatch of `.*(\d{5}).*`, or an error
echoing the input. -/
def extractPostalCode (text : GoString) : Except GoString GoString :=
  match reCaptureD5 text with
  | some cap => .ok cap
  | none => .error ("unable to extract company postal code: ".toList ++ text)

/-- The `CompanyRegistration` struct of `main.go`. -/
structure CompanyRegistration where
  regNo : GoString
  date : Option DateTime
  address : GoString
  city : GoString
  postalCode : GoString
  name : GoString
deriving DecidableEq

/-- One `log.Println` emitted by the `font` handler.  The Go text of the
date-failure entry depends on `time.Parse` error strings and is abstracted
to a tag; the other two carry the full Go error message. -/
inductive LogEntry where
  | numberErr (msg : GoString)
  | dateErr
  | postalErr (msg : GoString)
deriving DecidableEq

/-- The field value the Go code keeps from a fallible extractor: the extracted
string, or the zero value `""` when the extractor returned an error. -/
def exceptValD (r : Except GoString GoString) : GoString :=
  match r with
  | .ok v => v
  | .error _ => []

/-- The `log.Println` entries emitted for the registration-number extraction. -/
def numberLog (r : Except GoString GoString) : List LogEntry :=
  match r with
  | .ok _ => []
  | .error e => [.numberErr e]

/-- The `log.Println` entries emitted for the date extraction. -/
def dateLog (r : Option DateTime) : List LogEntry :=
  match r with
  | some _ => []
  | none => [.dateErr]

/-- The `log.Println` entries emitted for the postal-code extraction. -/
def postalLog (r : Except GoString GoString) : List LogEntry :=
  match r with
  | .ok _ => []
  | .error e => [.postalErr e]

/-- The `OnHTML("font", ...)` callback body of `collectRegistrations` for one
`font` element whose `tr` rows yielded `lines`: appends one record to
`registrations` when `lines` is nonempty.  `none` models a Go panic (the
unchecked `lines[5]` access or a panicking positional extractor), which
aborts the program. -/
def handleFontElement (lines : List GoString) (registrations : List CompanyRegistration) :
    Option (List CompanyRegistration × List LogEntry) :=
  if 0 < lines.length then
    match lines[5]? with
    | none => none
    | some line5 =>
      match extractCompanyName line5 with
      | none => none
      | some nameRes =>
        match extractCompanyAddress line5 with
        | none => none
        | some addrRes =>
          match extractCity line5 with
          | none => none
          | some cityRes =>
            some (registrations ++
              [CompanyRegistration.mk
                (goTrim (exceptValD (extractCompanyNumber lines.headI)))
                (extractCompanyRegistrationDate lines.headI)
                (goTrim addrRes.1) (goTrim cityRes.1)
                (goTrim (exceptValD (extractPostalCode line5)))
                (goTrim nameRes.1)],
              numberLog (extractCompanyNumber lines.headI) ++
              dateLog (extractCompanyRegistrationDate lines.headI) ++
              postalLog (extractPostalCode line5))
  else some (registrations, [])

/-- The literal the link regex anchors on (an apostrophe followed by `rb_id=`). -/
def rbIdMark : GoString := '\'' :: "rb_id=".toList

/-- Capture of `.*APOSTROPHErb_id=(.*)\&.*` on a link target. -/
def rbCapture (href : GoString) : Option GoString :=
  reCapture (pmLit rbIdMark) "&".toList href

/-- Fixed part of the detail-page URL template before the identifier. -/
def rbUrlHead : GoString :=
  "https://www.handelsregisterbekanntmachungen.de/skripte/hrb.php?rb_id=".toList

/-- Fixed part of the detail-page URL template after the identifier
(the fixed jurisdiction code `bw`). -/
def rbUrlTail : GoString := "&land_abk=bw".toList

/-- The detail-page URL built by `fmt.Sprintf` in the link handler. -/
def rbUrl (id : GoString) : GoString := rbUrlHead ++ id ++ rbUrlTail

/-- The `OnHTML("li>a[href]", ...)` callback for one link: the URL the handler
asks the collector to visit, or `none` when the pattern does not match. -/
def handleLink (href : GoString) : Option GoString :=
  (rbCapture href).map rbUrl

/-- Detail-page fetches scheduled for the links of a results page, in document
order. -/
def searchResultFetches (hrefs : List GoString) : List GoString :=
  hrefs.filterMap handleLink

/-- Go `fmt.Sprintf("%d", n)` for the nonnegative values used here. -/
def natDec (n : Nat) : GoString := (Nat.repr n).toList

/-- The form-data map posted by `collectRegistrations`, as a key/value list in
source order. -/
def searchParams (startDate endDate : DateTime) : List (GoString × GoString) :=
  [("suchart".toList, "uneingeschr".toList),
   ("button".toList, "Suche+starten".toList),
   ("vt".toList, natDec startDate.day),
   ("vm".toList, natDec startDate.month),
   ("vj".toList, natDec startDate.year),
   ("bt".toList, natDec endDate.day),
   ("bm".toList, natDec endDate.month),
   ("bj".toList, natDec endDate.year),
   ("land".toList, []),
   ("gericht".toList, []),
   ("gericht_name".toList, []),
   ("seite".toList, []),
   ("l".toList, []),
   ("r".toList, []),
   ("all".toList, "false".toList),
   ("rubrik".toList, []),
   ("az".toList, []),
   ("gegenstand".toList, "0".toList),
   ("order".toList, "4".toList)]

/-- One network request issued by a run. -/
inductive NetEvent where
  | searchPost (params : List (GoString × GoString))
  | detailFetch (url : GoString)
deriving DecidableEq

/-- Network activity of `collectRegistrations`, given the link targets found on
the results page: the form POST, then one detail fetch per matching link. -/
def crawlEvents (links : List GoString) (startDate endDate : DateTime) : List NetEvent :=
  NetEvent.searchPost (searchParams startDate endDate) ::
    (searchResultFetches links).map NetEvent.detailFetch

/-- Outcome of the CLI action (`nil`, or which error was returned). -/
inductive ActionResult where
  | ok
  | errStartDate
  | errEndDate
  | errOutput
deriving DecidableEq

/-- The `Action` closure of `main`: parse both dates, run the crawl, then
select the output format; `output not supported` is detected only after the
crawl.  Returns the network events issued and the outcome. -/
def runAction (links : List GoString) (startStr endStr outputFmt : GoString) :
    List NetEvent × ActionResult :=
  match goParseDate (goTrim startStr) with
  | none => ([], ActionResult.errStartDate)
  | some startDate =>
    match goParseDate (goTrim endStr) with
    | none => ([], ActionResult.errEndDate)
    | some endDate =>
      let evs := crawlEvents links startDate endDate
      if outputFmt = "jsonl".toList then (evs, ActionResult.ok)
      else if outputFmt = "csv".toList then (evs, ActionResult.ok)
      else (evs, ActionResult.errOutput)

/-- Modelled from the spec claim wording (not from the source): the text
between the first colon-whitespace pair of the input and the next line break
after it. -/
def specFirstColonCapture (t : GoString) : Option GoString :=
  ((List.range t.length).find? (fun i => (pmColonWS t i).isSome)).bind fun i =>
    ((List.range t.length).find? (fun k =>
        occursAt "\n".toList t k && decide (i + 2 ≤ k))).map fun k =>
      (t.drop (i + 2)).take (k - (i + 2))

/-! ### Helper lemmas about the embedded Go string primitives -/

theorem noNL_self (cs : GoString) (a : Nat) : noNL cs a a = true := by
  simp [noNL]

theorem occursAt_iff (pat cs : GoString) (i : Nat) :
    occursAt pat cs i = true ↔ (cs.drop i).take pat.length = pat := by
  simp [occursAt]

theorem occursAt_lt_length (pat cs : GoString) (i : Nat) (hne : pat ≠ [])
    (h : occursAt pat cs i = true) : i < cs.length := by
  by_contra hge
  rw [occursAt_iff] at h
  rw [List.drop_eq_nil_of_le (Nat.le_of_not_lt hge)] at h
  simp at h
  exact hne h

theorem infix_iff_exists_occursAt (pat cs : GoString) :
    pat <:+: cs ↔ ∃ i, occursAt pat cs i = true := by
  constructor
  · rintro ⟨u, v, h⟩
    refine ⟨u.length, ?_⟩
    rw [occursAt_iff, ← h]
    rw [List.append_assoc, List.drop_left, List.take_left]
  · rintro ⟨i, h⟩
    rw [occursAt_iff] at h
    have h1 : pat <+: cs.drop i := h ▸ List.take_prefix pat.length (cs.drop i)
    exact h1.isInfix.trans (List.drop_suffix i cs).isInfix

theorem firstIdx_eq_none_iff (cs pat : GoString) :
    firstIdx cs pat = none ↔ ∀ i, i < cs.length → occursAt pat cs i = false := by
  simp [firstIdx, List.find?_eq_none, List.mem_range]

theorem hasOccur_infix_iff (cs pat : GoString) (hne : pat ≠ []) :
    hasOccur cs pat = true ↔ pat <:+: cs := by
  rw [hasOccur, Option.isSome_iff_ne_none, infix_iff_exists_occursAt]
  constructor
  · intro h
    rcases Option.ne_none_iff_exists.mp h with ⟨i, hi⟩
    exact ⟨i, List.find?_some hi.symm⟩
  · rintro ⟨i, hi⟩
    intro hnone
    rw [firstIdx_eq_none_iff] at hnone
    have := hnone i (occursAt_lt_length pat cs i hne hi)
    rw [hi] at this
    cases this

theorem goSplitAux_ne_nil (fuel : Nat) (cs sep : GoString) : goSplitAux fuel cs sep ≠ [] := by
  cases fuel with
  | zero => simp [goSplitAux]
  | succ n =>
    simp only [goSplitAux]
    cases firstIdx cs sep <;> simp

theorem goSplit_ne_nil (cs sep : GoString) : goSplit cs sep ≠ [] :=
  goSplitAux_ne_nil _ _ _

theorem goSplit_length_eq_one_iff (cs sep : GoString) :
    (goSplit cs sep).length = 1 ↔ firstIdx cs sep = none := by
  rw [goSplit]
  show (goSplitAux (cs.length + 1) cs sep).length = 1 ↔ _
  simp only [goSplitAux]
  cases h : firstIdx cs sep with
  | none => simp
  | some i =>
    simp only [List.length_cons]
    constructor
    · intro hlen
      have := goSplitAux_ne_nil cs.length (cs.drop (i + sep.length)) sep
      have hpos : 0 < (goSplitAux cs.length (cs.drop (i + sep.length)) sep).length :=
        List.length_pos.mpr this
      omega
    · intro h'
      cases h'

theorem two_le_goSplit_length_iff (cs sep : GoString) :
    2 ≤ (goSplit cs sep).length ↔ hasOccur cs sep = true := by
  have hne := goSplit_ne_nil cs sep
  have hpos : 0 < (goSplit cs sep).length := List.length_pos.mpr hne
  rw [hasOccur]
  rcases h : firstIdx cs sep with _ | i
  · rw [← goSplit_length_eq_one_iff] at h
    simp [h]
  · have h1 : (goSplit cs sep).length ≠ 1 := by
      intro h1
      rw [goSplit_length_eq_one_iff] at h1
      rw [h1] at h
      cases h
    simp only [Option.isSome_some]
    refine ⟨fun _ => trivial, fun _ => ?_⟩
    omega

theorem singleton_infix_iff (c : Char) (cs : GoString) : [c] <:+: cs ↔ c ∈ cs := by
  constructor
  · intro h
    exact h.subset (by simp)
  · intro h
    rcases List.append_of_mem h with ⟨u, v, rfl⟩
    exact ⟨u, v, by simp⟩

/-- C10: the positional extractors are not total and never report failure
through their Go error result: for every input, `extractCompanyName`,
`extractCity` and `extractCompanyAddress` carry a `nil` error whenever they
terminate, and they fault with an out-of-range access (modelled `none`) —
rather than returning an explicit failure — exactly when the input lacks the
assumed delimiters: `extractCompanyName` when the first comma-separated
section contains no `": "`, `extractCity` when the input contains no comma,
`extractCompanyAddress` when the input has fewer than three comma-separated
sections. -/
theorem c10_positional_extractors_fault (t : GoString) :
    (∀ v e, extractCompanyName t = some (v, e) → e = none) ∧
    (extractCompanyName t = none ↔ ¬ colonSpaceLit <:+: (goSplit t commaLit).headI) ∧
    (∀ v e, extractCity t = some (v, e) → e = none) ∧
    (extractCity t = none ↔ ',' ∉ t) ∧
    (∀ v b e, extractCompanyAddress t = some (v, b, e) → e = none) ∧
    (extractCompanyAddress t = none ↔ (goSplit t commaLit).length < 3) := by
  refine ⟨?_, ?_, ?_, ?_, ?_, ?_⟩
  · intro v e h
    simp only [extractCompanyName, Option.map_eq_some'] at h
    rcases h with ⟨a, -, heq⟩
    cases heq
    rfl
  · simp only [extractCompanyName, Option.map_eq_none']
    rw [List.getElem?_eq_none_iff]
    rw [← hasOccur_infix_iff _ _ (by decide)]
    constructor
    · intro hle hocc
      have := (two_le_goSplit_length_iff _ _).mpr hocc
      omega
    · intro hnocc
      by_contra hlt
      exact hnocc ((two_le_goSplit_length_iff _ _).mp (by omega))
  · intro v e h
    simp only [extractCity, Option.map_eq_some'] at h
    rcases h with ⟨a, -, heq⟩
    cases heq
    rfl
  · simp only [extractCity, Option.map_eq_none']
    rw [show commaLit = [','] from by decide]
    rw [List.getElem?_eq_none_iff]
    rw [← singleton_infix_iff, ← hasOccur_infix_iff _ _ (by decide)]
    constructor
    · intro hle hocc
      have := (two_le_goSplit_length_iff _ _).mpr hocc
      omega
    · intro hnocc
      by_contra hlt
      exact hnocc ((two_le_goSplit_length_iff _ _).mp (by omega))
  · intro v b e h
    simp only [extractCompanyAddress, Option.map_eq_some'] at h
    rcases h with ⟨a, -, heq⟩
    cases heq
    rfl
  · simp only [extractCompanyAddress, Option.map_eq_none']
    rw [List.getElem?_eq_none_iff]
    omega

/-- C10 witness: on the concrete input `"abc"` (no comma at all), both
`extractCity` and `extractCompanyAddress` fault. -/
theorem c10_positional_extractors_fault_witness :
    extractCity "abc".toList = none ∧ extractCompanyAddress "abc".toList = none :=
  ⟨(c10_positional_extractors_fault "abc".toList).2.2.2.1.mpr (by decide),
   (c10_positional_extractors_fault "abc".toList).2.2.2.2.2.mpr (by decide)⟩

/-- C1 (code-bug evidence): a detail page with exactly three structural rows —
whose row 0 does yield a registration number and a date — makes the `font`
handler fault with the unchecked `lines[5]` access (modelled as `none`, a Go
index-out-of-range panic), instead of producing a record with `regNo`/`date`
populated and the remaining fields zero-valued as the specification requires. -/
theorem c1_three_rows_out_of_bounds_fault :
    handleFontElement ["A: 1\nBekannt gemacht am:01.02.2024 14:30 Uhr".toList,
        "x".toList, "y".toList] [] = none ∧
    extractCompanyNumber "A: 1\nBekannt gemacht am:01.02.2024 14:30 Uhr".toList
        = .ok "1".toList ∧
    extractCompanyRegistrationDate "A: 1\nBekannt gemacht am:01.02.2024 14:30 Uhr".toList
        = some (DateTime.mk 2024 2 1 14 30) :=
  ⟨rfl, rfl, rfl⟩

/-- C2 counterexample: with valid dates and the unsupported output selector
`"xml"`, the run does issue the search submission (the event list of the run
starts with the form POST) and only then fails with the unsupported-output
error — refuting the claim that no network activity happens under an invalid
output selector. -/
theorem c2_invalid_output_after_network_counterexample :
    runAction [] "2024-01-02".toList "2024-01-03".toList "xml".toList
      = (crawlEvents [] (DateTime.mk 2024 1 2 0 0) (DateTime.mk 2024 1 3 0 0),
         ActionResult.errOutput) ∧
    NetEvent.searchPost (searchParams (DateTime.mk 2024 1 2 0 0) (DateTime.mk 2024 1 3 0 0))
      ∈ (runAction [] "2024-01-02".toList "2024-01-03".toList "xml".toList).1 := by
  refine ⟨by rfl, ?_⟩
  rw [show (runAction [] "2024-01-02".toList "2024-01-03".toList "xml".toList).1
      = crawlEvents [] (DateTime.mk 2024 1 2 0 0) (DateTime.mk 2024 1 3 0 0) from by rfl]
  simp [crawlEvents]

/-- C2 amended: an unsupported output selector is fatal, but it is surfaced
only after the crawl: given parseable dates, the run issues the search
submission (and the detail fetches) and then returns the unsupported-output
error; only date-parse failures are surfaced before any network activity. -/
theorem c2_invalid_output_fatal_after_crawl (links : List GoString)
    (startStr endStr outputFmt : GoString) (startDate endDate : DateTime)
    (hs : goParseDate (goTrim startStr) = some startDate)
    (he : goParseDate (goTrim endStr) = some endDate)
    (hfmt1 : outputFmt ≠ "csv".toList) (hfmt2 : outputFmt ≠ "jsonl".toList) :
    runAction links startStr endStr outputFmt
      = (crawlEvents links startDate endDate, ActionResult.errOutput) ∧
    NetEvent.searchPost (searchParams startDate endDate)
      ∈ (runAction links startStr endStr outputFmt).1 ∧
    (∀ ss es fmt2, goParseDate (goTrim ss) = none →
      runAction links ss es fmt2 = ([], ActionResult.errStartDate)) := by
  have hrun : runAction links startStr endStr outputFmt
      = (crawlEvents links startDate endDate, ActionResult.errOutput) := by
    rw [runAction, hs, he]
    show (if _ = _ then _ else _) = _
    rw [if_neg hfmt2, if_neg hfmt1]
  refine ⟨hrun, ?_, ?_⟩
  · rw [hrun]
    simp [crawlEvents]
  · intro ss es fmt2 hnone
    rw [runAction, hnone]

/-- C2 witness: the amended statement instantiated at concrete dates, an empty
results page and the selector `"xml"`. -/
theorem c2_invalid_output_fatal_after_crawl_witness :
    runAction [] "2024-01-02".toList "2024-01-03".toList "xml".toList
      = (crawlEvents [] (DateTime.mk 2024 1 2 0 0) (DateTime.mk 2024 1 3 0 0),
         ActionResult.errOutput) :=
  (c2_invalid_output_fatal_after_crawl [] "2024-01-02".toList "2024-01-03".toList
    "xml".toList (DateTime.mk 2024 1 2 0 0) (DateTime.mk 2024 1 3 0 0)
    (by decide) (by decide) (by decide) (by decide)).1

theorem length_filterMap_isSome {α β : Type} (f : α → Option β) (l : List α) :
    (l.filterMap f).length = (l.filter (fun a => (f a).isSome)).length := by
  induction l with
  | nil => rfl
  | cons a l ih => cases h : f a <;> simp [List.filterMap_cons, List.filter_cons, h, ih]

/-- C5 counterexample: the claim sorts the scope flag (`all`) and the subject
code (`gegenstand`) into the block of empty-string fields, but the submitted
values are `"false"` and `"0"`, not empty strings. -/
theorem c5_scope_and_subject_not_empty_counterexample :
    (searchParams (DateTime.mk 2024 1 2 0 0) (DateTime.mk 2024 1 3 0 0)).lookup "all".toList
      = some "false".toList ∧
    "false".toList ≠ ([] : GoString) ∧
    (searchParams (DateTime.mk 2024 1 2 0 0) (DateTime.mk 2024 1 3 0 0)).lookup
        "gegenstand".toList = some "0".toList ∧
    "0".toList ≠ ([] : GoString) :=
  ⟨by decide, by decide, by decide, by decide⟩

/-- C5 amended: the submitted parameter set consists of the free-text
search-mode flag, the submit-button label, the unpadded numeric day, month and
year of the start and end dates, the empty-string filter fields `land`,
`gericht`, `gericht_name`, `seite`, `l`, `r`, `rubrik` and `az`, the scope
flag `all` with value `"false"`, the subject code `gegenstand` with value
`"0"`, and the result-ordering code `order` with value `"4"`. -/
theorem c5_search_params_byte_for_byte (s e : DateTime) :
    (searchParams s e).map Prod.fst =
      ["suchart".toList, "button".toList, "vt".toList, "vm".toList, "vj".toList,
       "bt".toList, "bm".toList, "bj".toList, "land".toList, "gericht".toList,
       "gericht_name".toList, "seite".toList, "l".toList, "r".toList, "all".toList,
       "rubrik".toList, "az".toList, "gegenstand".toList, "order".toList] ∧
    (searchParams s e).lookup "suchart".toList = some "uneingeschr".toList ∧
    (searchParams s e).lookup "button".toList = some "Suche+starten".toList ∧
    (searchParams s e).lookup "vt".toList = some (natDec s.day) ∧
    (searchParams s e).lookup "vm".toList = some (natDec s.month) ∧
    (searchParams s e).lookup "vj".toList = some (natDec s.year) ∧
    (searchParams s e).lookup "bt".toList = some (natDec e.day) ∧
    (searchParams s e).lookup "bm".toList = some (natDec e.month) ∧
    (searchParams s e).lookup "bj".toList = some (natDec e.year) ∧
    (searchParams s e).lookup "land".toList = some [] ∧
    (searchParams s e).lookup "gericht".toList = some [] ∧
    (searchParams s e).lookup "gericht_name".toList = some [] ∧
    (searchParams s e).lookup "seite".toList = some [] ∧
    (searchParams s e).lookup "l".toList = some [] ∧
    (searchParams s e).lookup "r".toList = some [] ∧
    (searchParams s e).lookup "all".toList = some "false".toList ∧
    (searchParams s e).lookup "rubrik".toList = some [] ∧
    (searchParams s e).lookup "az".toList = some [] ∧
    (searchParams s e).lookup "gegenstand".toList = some "0".toList ∧
    (searchParams s e).lookup "order".toList = some "4".toList ∧
    natDec 5 = "5".toList :=
  ⟨rfl, rfl, rfl, rfl, rfl, rfl, rfl, rfl, rfl, rfl, rfl, rfl, rfl, rfl, rfl, rfl,
   rfl, rfl, rfl, rfl, rfl⟩

/-- C4: every link whose target matches the `rb_id` pattern schedules exactly
one detail fetch of the fixed template URL with the captured identifier and
the fixed jurisdiction code substituted, non-matching links are ignored, and
a results page of exactly two links with distinct `rb_id` values yields
exactly two fetches that differ only in the identifier between the fixed head
and tail of the template. -/
theorem c4_link_handler_fetches (h1 h2 a b : GoString)
    (ha : rbCapture h1 = some a) (hb : rbCapture h2 = some b) (hab : a ≠ b) :
    searchResultFetches [h1, h2] = [rbUrl a, rbUrl b] ∧
    rbUrl a = rbUrlHead ++ a ++ rbUrlTail ∧
    rbUrl b = rbUrlHead ++ b ++ rbUrlTail ∧
    rbUrl a ≠ rbUrl b ∧
    (∀ h, rbCapture h = none → handleLink h = none) ∧
    (∀ hrefs : List GoString, (searchResultFetches hrefs).length
        = (hrefs.filter (fun h => (rbCapture h).isSome)).length) := by
  refine ⟨?_, rfl, rfl, ?_, ?_, ?_⟩
  · simp [searchResultFetches, List.filterMap_cons, handleLink, ha, hb]
  · intro heq
    exact hab (List.append_cancel_left (List.append_cancel_right heq))
  · intro h hn
    simp [handleLink, hn]
  · intro hrefs
    rw [searchResultFetches, length_filterMap_isSome]
    congr 1
    apply List.filter_congr
    intro x _
    simp [handleLink]

/-- C4 witness: two concrete links with identifiers `100` and `200` and the
resulting pair of template URLs. -/
theorem c4_link_handler_fetches_witness :
    searchResultFetches ["x".toList ++ rbIdMark ++ "100&y".toList,
                         "x".toList ++ rbIdMark ++ "200&y".toList]
      = [rbUrl "100".toList, rbUrl "200".toList] :=
  (c4_link_handler_fetches _ _ "100".toList "200".toList (by rfl) (by rfl) (by decide)).1

/-- C8 counterexample: on `"A: Foo, Berlin, Street 1"`, `extractCity` returns
the second comma-separated section verbatim — `" Berlin"` with its leading
space, not `"Berlin"` — and `extractCompanyAddress` likewise returns
`" Street 1"`, not `"Street 1"`. -/
theorem c8_sections_keep_leading_space_counterexample :
    extractCity "A: Foo, Berlin, Street 1".toList = some (" Berlin".toList, none) ∧
    " Berlin".toList ≠ "Berlin".toList ∧
    extractCompanyAddress "A: Foo, Berlin, Street 1".toList
      = some (" Street 1".toList, false, none) ∧
    " Street 1".toList ≠ "Street 1".toList :=
  ⟨by decide, by decide, by decide, by decide⟩

/-- C8 amended: `extractCity` returns the second comma-separated section
verbatim (here `" Berlin"`, which the record parser's trim reduces to
`"Berlin"`), `extractCompanyAddress` the third (here `" Street 1"`, trimmed
`"Street 1"`); a third section longer than 35 bytes is flagged by the
diagnostic print but still returned, never turned into a failure. -/
theorem c8_city_address_sections (t s2 : GoString)
    (h : (goSplit t commaLit)[2]? = some s2) (hlen : 35 < goStrLen s2) :
    extractCity "A: Foo, Berlin, Street 1".toList = some (" Berlin".toList, none) ∧
    goTrim " Berlin".toList = "Berlin".toList ∧
    extractCompanyAddress "A: Foo, Berlin, Street 1".toList
      = some (" Street 1".toList, false, none) ∧
    goTrim " Street 1".toList = "Street 1".toList ∧
    extractCompanyAddress t = some (s2, true, none) := by
  refine ⟨by decide, by decide, by decide, by decide, ?_⟩
  simp [extractCompanyAddress, h, hlen]

/-- C8 witness: a 37-byte third section is returned with the diagnostic flag
set. -/
theorem c8_city_address_sections_witness :
    extractCompanyAddress "a, b, cccccccccccccccccccccccccccccccccccc".toList
      = some (" cccccccccccccccccccccccccccccccccccc".toList, true, none) :=
  (c8_city_address_sections "a, b, cccccccccccccccccccccccccccccccccccc".toList
    " cccccccccccccccccccccccccccccccccccc".toList (by decide) (by decide)).2.2.2.2

theorem mem_of_headOpt {α : Type} {l : List α} {a : α} (h : l.head? = some a) : a ∈ l := by
  cases l with
  | nil => cases h
  | cons x xs =>
    rw [List.head?_cons] at h
    cases h
    exact List.mem_cons_self _ _

theorem mem_of_lastOpt {α : Type} {l : List α} {a : α} (h : l.getLast? = some a) : a ∈ l := by
  induction l with
  | nil => cases h
  | cons x xs ih =>
    cases xs with
    | nil =>
      rw [List.getLast?_singleton] at h
      cases h
      exact List.mem_cons_self _ _
    | cons y ys =>
      rw [List.getLast?_cons_cons] at h
      exact List.mem_cons_of_mem _ (ih h)

theorem lastOpt_isSome_of_ne_nil {α : Type} {l : List α} (h : l ≠ []) :
    ∃ a, l.getLast? = some a :=
  ⟨l.getLast h, List.getLast?_eq_getLast l h⟩

theorem mem_of_getElemOpt {α : Type} {l : List α} {i : Nat} {a : α}
    (h : l[i]? = some a) : a ∈ l := by
  rcases List.getElem?_eq_some.mp h with ⟨hlt, rfl⟩
  exact List.getElem_mem hlt

theorem mem_of_occursAt (pat cs : GoString) (k : Nat) (h : occursAt pat cs k = true)
    {c : Char} (hc : c ∈ pat) : c ∈ cs := by
  rw [occursAt_iff] at h
  have hmem : c ∈ (cs.drop k).take pat.length := by rw [h]; exact hc
  exact List.drop_subset _ _ (List.take_subset _ _ hmem)

theorem reCapAt_eq_none_of_pm_none {pm : GoString → Nat → Option Nat}
    {slit cs : GoString} {i : Nat} (h : pm cs i = none) :
    reCapAt pm slit cs i = none := by
  rw [reCapAt, h]
  rfl

theorem reFeasK_occursAt {slit cs : GoString} {capStart k : Nat}
    (h : reFeasK slit cs capStart k = true) : occursAt slit cs k = true := by
  simp only [reFeasK, Bool.and_eq_true] at h
  exact h.1.1

theorem reCapAt_eq_none_of_no_slit {pm : GoString → Nat → Option Nat}
    {slit cs : GoString} {i : Nat} {c : Char} (hc : c ∈ slit) (hn : c ∉ cs) :
    reCapAt pm slit cs i = none := by
  rw [reCapAt]
  cases hp : pm cs i with
  | none => rfl
  | some l =>
    have hfil : (List.range cs.length).filter (reFeasK slit cs (i + l)) = [] := by
      rw [List.filter_eq_nil_iff]
      intro k _ hfeas
      exact hn (mem_of_occursAt slit cs k (reFeasK_occursAt hfeas) hc)
    rw [Option.some_bind, hfil]
    rfl

theorem reCapture_eq_none (pm : GoString → Nat → Option Nat) (slit cs : GoString)
    (h : ∀ i, i < cs.length → reCapAt pm slit cs i = none) :
    reCapture pm slit cs = none := by
  rw [reCapture]
  have hfeas : (List.range cs.length).filter (fun i => (reCapAt pm slit cs i).isSome) = [] := by
    rw [List.filter_eq_nil_iff]
    intro i hi
    rw [h i (List.mem_range.mp hi)]
    simp
  rw [hfeas]
  rfl

theorem pmColonWS_some_colon_mem {cs : GoString} {i l : Nat}
    (h : pmColonWS cs i = some l) : ':' ∈ cs := by
  rw [pmColonWS] at h
  rcases h1 : cs[i]? with _ | c1
  · rw [h1] at h; cases h
  · rcases h2 : cs[i + 1]? with _ | c2
    · rw [h1, h2] at h; cases h
    · rw [h1, h2, Option.some_bind, Option.some_bind] at h
      split_ifs at h with hcond
      rcases hcond with ⟨rfl, -⟩
      exact mem_of_getElemOpt h1

/-- C6 counterexample: on `"a: b: c\nx"` the text between the *first*
colon-space and the line break is `"b: c"`, but `extractCompanyNumber`
returns `"c"` — the greedy leading `.*` anchors at the *last* colon-space. -/
theorem c6_first_colon_capture_counterexample :
    extractCompanyNumber "a: b: c\nx".toList = .ok "c".toList ∧
    specFirstColonCapture "a: b: c\nx".toList = some "b: c".toList ∧
    "c".toList ≠ "b: c".toList :=
  ⟨rfl, rfl, by decide⟩

/-- C6 amended: `extractCompanyNumber "Foo: HRB 12345\nbar"` returns
`"HRB 12345"`; in general the captured text runs from the *last*
colon-plus-whitespace pair of the first line admitting a match up to the
following line break; and on any input with no colon at all, or with no
newline at all, extraction fails with the original input text echoed in the
failure message. -/
theorem c6_extract_number (t : GoString) :
    extractCompanyNumber "Foo: HRB 12345\nbar".toList = .ok "HRB 12345".toList ∧
    extractCompanyNumber "a: b: c\nx".toList = .ok "c".toList ∧
    (':' ∉ t →
      extractCompanyNumber t
        = .error ("unable to extract company registration number: ".toList ++ t)) ∧
    ('\n' ∉ t →
      extractCompanyNumber t
        = .error ("unable to extract company registration number: ".toList ++ t)) := by
  refine ⟨rfl, rfl, ?_, ?_⟩
  · intro hcolon
    have hnone : reCapture pmColonWS "\n".toList t = none :=
      reCapture_eq_none _ _ _ (fun i _ => by
        cases hp : pmColonWS t i with
        | none => exact reCapAt_eq_none_of_pm_none hp
        | some l => exact absurd (pmColonWS_some_colon_mem hp) hcolon)
    rw [extractCompanyNumber, hnone]
  · intro hnl
    have hnone : reCapture pmColonWS "\n".toList t = none :=
      reCapture_eq_none _ _ _ (fun i _ =>
        reCapAt_eq_none_of_no_slit (by decide) hnl)
    rw [extractCompanyNumber, hnone]

/-- C6 witness: the failure clause instantiated at `"abc"`, which contains no
colon. -/
theorem c6_extract_number_witness :
    extractCompanyNumber "abc".toList
      = .error ("unable to extract company registration number: abc".toList) := by
  have h := (c6_extract_number "abc".toList).2.2.1 (by decide)
  rw [h]
  rfl

theorem digitRunAt_lt_length {cs : GoString} {p : Nat} (h : digitRunAt cs p = true) :
    p < cs.length := by
  simp only [digitRunAt, Bool.and_eq_true, beq_iff_eq] at h
  have h1 := h.1
  rw [List.length_take, List.length_drop] at h1
  omega

theorem reCaptureD5_eq_some_iff (cs : GoString) :
    (∃ s, reCaptureD5 cs = some s) ↔ ∃ p, digitRunAt cs p = true := by
  constructor
  · rintro ⟨s, hs⟩
    rw [reCaptureD5] at hs
    rcases hh : ((List.range cs.length).filter (fun p => digitRunAt cs p)).head? with _ | p0
    · rw [hh] at hs; cases hs
    · exact ⟨p0, (List.mem_filter.mp (mem_of_headOpt hh)).2⟩
  · rintro ⟨p, hp⟩
    have hplt := digitRunAt_lt_length hp
    have hpmem : p ∈ (List.range cs.length).filter (fun p => digitRunAt cs p) :=
      List.mem_filter.mpr ⟨List.mem_range.mpr hplt, hp⟩
    obtain ⟨p0, hp0⟩ : ∃ p0,
        ((List.range cs.length).filter (fun p => digitRunAt cs p)).head? = some p0 := by
      cases hfe : (List.range cs.length).filter (fun p => digitRunAt cs p) with
      | nil => rw [hfe] at hpmem; cases hpmem
      | cons a l => exact ⟨a, rfl⟩
    have hsubmem : p0 ∈ ((List.range cs.length).filter
        (fun p => digitRunAt cs p)).filter (fun p => noNL cs p0 p) :=
      List.mem_filter.mpr ⟨mem_of_headOpt hp0, noNL_self cs p0⟩
    obtain ⟨k, hk⟩ := lastOpt_isSome_of_ne_nil (List.ne_nil_of_mem hsubmem)
    refine ⟨(cs.drop k).take 5, ?_⟩
    rw [reCaptureD5, hp0, Option.some_bind, hk]
    rfl

theorem reCaptureD5_some_shape {cs s : GoString} (h : reCaptureD5 cs = some s) :
    ∃ p, digitRunAt cs p = true ∧ s = (cs.drop p).take 5 := by
  rw [reCaptureD5] at h
  rcases hh : ((List.range cs.length).filter (fun p => digitRunAt cs p)).head? with _ | p0
  · rw [hh] at h; cases h
  · rw [hh, Option.some_bind] at h
    rcases hk : (((List.range cs.length).filter
        (fun p => digitRunAt cs p)).filter (fun p => noNL cs p0 p)).getLast? with _ | k
    · rw [hk] at h; cases h
    · rw [hk, Option.map_some'] at h
      have hkfeas := (List.mem_filter.mp (List.mem_filter.mp (mem_of_lastOpt hk)).1).2
      injection h with h'
      exact ⟨k, hkfeas, h'.symm⟩

theorem exists_digitRun_iff (t : GoString) :
    (∃ p, digitRunAt t p = true) ↔
      ∃ ds : GoString, ds.length = 5 ∧ ds.all goIsDigit = true ∧ ds <:+: t := by
  constructor
  · rintro ⟨p, hp⟩
    simp only [digitRunAt, Bool.and_eq_true, beq_iff_eq] at hp
    exact ⟨(t.drop p).take 5, hp.1, hp.2,
      (( List.take_prefix _ _).isInfix).trans (List.drop_suffix _ _).isInfix⟩
  · rintro ⟨ds, h5, hdig, u, v, rfl⟩
    refine ⟨u.length, ?_⟩
    have hdrop : ((u ++ ds ++ v).drop u.length) = ds ++ v := by
      rw [List.append_assoc, List.drop_left]
    rw [digitRunAt, hdrop]
    rw [show (ds ++ v).take 5 = ds from by rw [← h5, List.take_left]]
    rw [h5, hdig]
    rfl

/-- C9: `extractPostalCode` returns `"10115"` on `"Berlin, 10115 Germany"`;
whenever it succeeds the returned value is a run of five consecutive digits
contained in the input; it succeeds whenever the input contains such a run;
and it fails — echoing the input in the error — exactly when the input
contains no run of five consecutive digits. -/
theorem c9_postal_code (t : GoString) :
    extractPostalCode "Berlin, 10115 Germany".toList = .ok "10115".toList ∧
    (∀ s, extractPostalCode t = .ok s →
      s.length = 5 ∧ s.all goIsDigit = true ∧ s <:+: t) ∧
    ((∃ ds : GoString, ds.length = 5 ∧ ds.all goIsDigit = true ∧ ds <:+: t) →
      ∃ s, extractPostalCode t = .ok s) ∧
    ((¬ ∃ ds : GoString, ds.length = 5 ∧ ds.all goIsDigit = true ∧ ds <:+: t) →
      extractPostalCode t = .error ("unable to extract company postal code: ".toList ++ t)) := by
  refine ⟨rfl, ?_, ?_, ?_⟩
  · intro s hs
    have hsome : reCaptureD5 t = some s := by
      rw [extractPostalCode] at hs
      rcases hr : reCaptureD5 t with _ | c
      · rw [hr] at hs; cases hs
      · rw [hr] at hs
        injection hs with h'
        rw [← h']
    rcases reCaptureD5_some_shape hsome with ⟨p, hp, rfl⟩
    simp only [digitRunAt, Bool.and_eq_true, beq_iff_eq] at hp
    exact ⟨hp.1, hp.2,
      (( List.take_prefix _ _).isInfix).trans (List.drop_suffix _ _).isInfix⟩
  · intro hex
    obtain ⟨s, hs⟩ := (reCaptureD5_eq_some_iff t).mpr ((exists_digitRun_iff t).mpr hex)
    exact ⟨s, by rw [extractPostalCode, hs]⟩
  · intro hnex
    rcases hr : reCaptureD5 t with _ | c
    · rw [extractPostalCode, hr]
    · exact absurd ((exists_digitRun_iff t).mp ((reCaptureD5_eq_some_iff t).mp ⟨c, hr⟩)) hnex

/-- C9 witness: the success clause instantiated at `"Berlin, 10115 Germany"`
with the explicit five-digit run `"10115"`. -/
theorem c9_postal_code_witness :
    ∃ s, extractPostalCode "Berlin, 10115 Germany".toList = .ok s :=
  (c9_postal_code "Berlin, 10115 Germany".toList).2.2.1
    ⟨"10115".toList, by decide, by decide, "Berlin, ".toList, " Germany".toList, by decide⟩

/-- C7 counterexample: on the well-formed line
`"Bekannt gemacht am:01.02.2024 14:30 Uhr"` the captured substring between
the marker and the time-unit marker is `"01.02.2024 14:30 "` — which does
*not* match the fixed format exactly (trailing space) — yet extraction
succeeds, because the code trims the capture before parsing; this refutes the
claimed failure condition read literally. -/
theorem c7_trailing_space_capture_counterexample :
    extractCompanyRegistrationDate "Bekannt gemacht am:01.02.2024 14:30 Uhr".toList
      = some (DateTime.mk 2024 2 1 14 30) ∧
    reCapture (pmLit bekanntLit) uhrLit "Bekannt gemacht am:01.02.2024 14:30 Uhr".toList
      = some "01.02.2024 14:30 ".toList ∧
    goParseTimestamp "01.02.2024 14:30 ".toList = none :=
  ⟨rfl, rfl, by decide⟩

/-- C7 amended: `extractCompanyRegistrationDate` returns the parsed timestamp
of the captured substring *after trimming surrounding whitespace*, and fails
exactly when the marker pattern yields no capture or the trimmed capture does
not parse with the fixed layout (two-digit day, two-digit month, four-digit
year, one-or-two-digit 24-hour hour, two-digit minute, calendar-valid): for
every input, when the pattern captures `cap` the result is literally
`goParseTimestamp (goTrim cap)` — `none` included — and when it captures
nothing the result is `none`. -/
theorem c7_extract_date (t cap : GoString)
    (hcap : reCapture (pmLit bekanntLit) uhrLit t = some cap) :
    extractCompanyRegistrationDate "Bekannt gemacht am:01.02.2024 14:30 Uhr".toList
      = some (DateTime.mk 2024 2 1 14 30) ∧
    extractCompanyRegistrationDate "Bekannt gemacht am:not-a-date Uhr".toList = none ∧
    extractCompanyRegistrationDate t = goParseTimestamp (goTrim cap) ∧
    (∀ u, reCapture (pmLit bekanntLit) uhrLit u = none →
      extractCompanyRegistrationDate u = none) ∧
    (∀ cs dt, goParseTimestamp cs = some dt →
      (1 ≤ dt.month ∧ dt.month ≤ 12) ∧
      (1 ≤ dt.day ∧ dt.day ≤ daysIn dt.month dt.year) ∧
      dt.hour < 24 ∧ dt.minute < 60) := by
  refine ⟨rfl, rfl, ?_, ?_, ?_⟩
  · rw [extractCompanyRegistrationDate, hcap, Option.some_bind]
  · intro u hu
    rw [extractCompanyRegistrationDate, hu]
    rfl
  · intro cs dt hdt
    rw [goParseTimestamp] at hdt
    simp only [Option.bind_eq_some] at hdt
    obtain ⟨dr, -, r2, -, mr, -, r4, -, yr, -, r6, -, hr, -, r8, -, mir, -, hfin⟩ := hdt
    split_ifs at hfin with hemp
    rw [mkDateTime] at hfin
    split_ifs at hfin with hg
    injection hfin with h'
    rw [← h']
    exact ⟨⟨hg.1, hg.2.1⟩, ⟨hg.2.2.1, hg.2.2.2.1⟩, hg.2.2.2.2.1, hg.2.2.2.2.2⟩

/-- C7 witness: the amended statement instantiated at the concrete marker line
with capture `"01.02.2024 14:30 "`, whose trimmed form the result equals. -/
theorem c7_extract_date_witness :
    extractCompanyRegistrationDate "Bekannt gemacht am:01.02.2024 14:30 Uhr".toList
      = goParseTimestamp (goTrim "01.02.2024 14:30 ".toList) :=
  (c7_extract_date "Bekannt gemacht am:01.02.2024 14:30 Uhr".toList
    "01.02.2024 14:30 ".toList (by rfl)).2.2.1

/-- C3: for a detail page with at least six lines whose line 5 carries the
delimiters the positional extractors assume, a failure of any fallible field
extractor (registration number, date, postal code) is logged, leaves that
field at its zero value, and still results in exactly one record appended to
the result sequence — a field-level failure never aborts the page. -/
theorem c3_field_failures_tolerated (lines : List GoString)
    (regs : List CompanyRegistration) (line5 : GoString)
    (h5 : lines[5]? = some line5)
    (hname : hasOccur ((goSplit line5 commaLit).headI) colonSpaceLit = true)
    (hsec : 3 ≤ (goSplit line5 commaLit).length) :
    ∃ reg logs, handleFontElement lines regs = some (regs ++ [reg], logs) ∧
      (∀ e, extractCompanyNumber lines.headI = .error e →
        reg.regNo = [] ∧ LogEntry.numberErr e ∈ logs) ∧
      (extractCompanyRegistrationDate lines.headI = none →
        reg.date = none ∧ LogEntry.dateErr ∈ logs) ∧
      (∀ e, extractPostalCode line5 = .error e →
        reg.postalCode = [] ∧ LogEntry.postalErr e ∈ logs) := by
  have h5lt : 5 < lines.length := by
    rcases List.getElem?_eq_some.mp h5 with ⟨h, -⟩
    exact h
  have hlen : 0 < lines.length := by omega
  have h2 : 2 ≤ (goSplit ((goSplit line5 commaLit).headI) colonSpaceLit).length :=
    (two_le_goSplit_length_iff _ _).mpr hname
  obtain ⟨nm, hnm⟩ : ∃ v, (goSplit ((goSplit line5 commaLit).headI) colonSpaceLit)[1]? = some v :=
    ⟨_, List.getElem?_eq_getElem (by omega)⟩
  obtain ⟨a2, ha2⟩ : ∃ v, (goSplit line5 commaLit)[2]? = some v :=
    ⟨_, List.getElem?_eq_getElem (by omega)⟩
  obtain ⟨c2, hc2⟩ : ∃ v, (goSplit line5 commaLit)[1]? = some v :=
    ⟨_, List.getElem?_eq_getElem (by omega)⟩
  have hnameEq : extractCompanyName line5 = some (nm, none) := by
    rw [extractCompanyName, hnm, Option.map_some']
  have haddrEq : extractCompanyAddress line5 = some (a2, decide (35 < goStrLen a2), none) := by
    rw [extractCompanyAddress, ha2, Option.map_some']
  have hcityEq : extractCity line5 = some (c2, none) := by
    rw [extractCity, hc2, Option.map_some']
  refine ⟨CompanyRegistration.mk
      (goTrim (exceptValD (extractCompanyNumber lines.headI)))
      (extractCompanyRegistrationDate lines.headI)
      (goTrim a2) (goTrim c2)
      (goTrim (exceptValD (extractPostalCode line5)))
      (goTrim nm),
    numberLog (extractCompanyNumber lines.headI) ++
      dateLog (extractCompanyRegistrationDate lines.headI) ++
      postalLog (extractPostalCode line5), ?_, ?_, ?_, ?_⟩
  · simp only [handleFontElement, if_pos hlen, h5, hnameEq, haddrEq, hcityEq]
  · intro e he
    rw [he]
    exact ⟨rfl, by simp [numberLog]⟩
  · intro hd
    rw [hd]
    exact ⟨rfl, by simp [dateLog]⟩
  · intro e he
    rw [he]
    exact ⟨rfl, by simp [postalLog]⟩

/-- C3 witness: a six-line page whose line 0 yields neither number nor date
and whose line 5 has the positional delimiters but no five-digit run, so all
three fallible extractors fail, are logged, and one record is still appended. -/
theorem c3_field_failures_tolerated_witness :
    ∃ reg logs,
      handleFontElement ["nope".toList, [], [], [], [],
          "X: Acme GmbH, Berlin, Hauptstr 5".toList] [] = some ([reg], logs) ∧
      (∀ e, extractCompanyNumber "nope".toList = .error e →
        reg.regNo = [] ∧ LogEntry.numberErr e ∈ logs) ∧
      (extractCompanyRegistrationDate "nope".toList = none →
        reg.date = none ∧ LogEntry.dateErr ∈ logs) ∧
      (∀ e, extractPostalCode "X: Acme GmbH, Berlin, Hauptstr 5".toList = .error e →
        reg.postalCode = [] ∧ LogEntry.postalErr e ∈ logs) :=
  c3_field_failures_tolerated _ [] _ (by rfl) (by decide) (by decide)

